import Mathlib

/-
Verification of the cortex CLI client core (src/cli/cmd/lib_client.go) and the
operator-side Delete endpoint (src/pkg/operator/endpoints/delete.go).

Shallow embedding conventions:
  - Go strings and byte slices are modelled as Lean String values (one Char per
    byte for the ASCII inputs the claims exercise).
  - Go maps that the source only iterates over are modelled as association
    lists; within a single Go map the keys are distinct, and where iteration
    order of a single map could matter the claims only use singleton maps.
  - http.Header and url.Values are modelled as functions from key to the
    stored value(s), with the Set operations of the source.
  - Fallible operations return Option or Except.
-/

namespace Cortex

/-- The fields of the CLI configuration that lib_client.go reads
(getValidCliConfig provides them; only these three fields are used). -/
structure CliConfig where
  CortexURL : String
  AWSAccessKeyID : String
  AWSSecretAccessKey : String

/-- authHeader from lib_client.go:
fmt.Sprintf of the string CortexAWS space id bar secret. -/
def authHeader (cfg : CliConfig) : String :=
  "CortexAWS " ++ cfg.AWSAccessKeyID ++ "|" ++ cfg.AWSSecretAccessKey

/-- http.Header.Set: replaces the value stored for a key. The header map is
modelled as a function from header name to the optional stored value. -/
def headerSet (h : String → Option String) (k v : String) : String → Option String :=
  fun q => if q = k then some v else h q

/-- The header mutation performed by makeRequest before dispatch:
request.Header.Set of Authorization to authHeader and of CortexAPIVersion to
the compiled-in version string (consts.CortexVersion, passed here as the
parameter version since its value is compiled in, not part of the sources). -/
def makeRequestHeaders (cfg : CliConfig) (version : String)
    (h : String → Option String) : String → Option String :=
  headerSet (headerSet h "Authorization" (authHeader cfg)) "CortexAPIVersion" version

/-- The handshake header set built by StreamLogs: a fresh http.Header with
Authorization set to authHeader and CortexAPIVersion set to the version. -/
def streamLogsHeader (cfg : CliConfig) (version : String) : String → Option String :=
  headerSet (headerSet (fun _ => none) "Authorization" (authHeader cfg))
    "CortexAPIVersion" version

/-- C2: every request issued by the client carries an Authorization header
equal to the string CortexAWS followed by a space, the access key id, a
vertical bar, and the secret access key, built from the active configuration.
Ordinary HTTP requests (HTTPGet, HTTPPostJSON, HTTPPostJSONData, HTTPUpload,
HTTPUploadZip) all dispatch through makeRequest, which sets the header; the
websocket handshake of StreamLogs sets the same header on its header set. -/
theorem claim_C2_auth_header (cfg : CliConfig) (version : String)
    (h : String → Option String) :
    authHeader cfg = "CortexAWS " ++ cfg.AWSAccessKeyID ++ "|" ++ cfg.AWSSecretAccessKey ∧
    makeRequestHeaders cfg version h "Authorization" = some (authHeader cfg) ∧
    streamLogsHeader cfg version "Authorization" = some (authHeader cfg) := by
  refine ⟨rfl, ?_, ?_⟩ <;> simp [makeRequestHeaders, streamLogsHeader, headerSet]

/-
JSON decoding, modelling what this client needs of encoding/json.Unmarshal:
makeRequest and StreamLogs unmarshal a response body into
schema.ErrorResponse. The schema package is repository code that is not in
the sources; per the spec the error envelope wire format is a JSON object
with a field named error holding a string, any body that does not parse to
this shape being treated as opaque error text. The parser below is a full
JSON grammar (the strict grammar encoding/json accepts: no trailing commas,
strict number syntax, the four whitespace characters, string escapes with
surrogate pairs), so that parses-as-JSON is decided faithfully.
-/

/-- A parsed JSON value. Numeric payloads are irrelevant to the claims
(a numeric error field is a decode type error either way), so num carries
no payload. -/
inductive Json where
  | null
  | bool (b : Bool)
  | num
  | str (s : String)
  | arr (items : List Json)
  | obj (fields : List (String × Json))

/-- The four whitespace characters of the JSON grammar. -/
def jsonWs (c : Char) : Bool :=
  c = ' ' || c = '\t' || c = '\n' || c = '\r'

/-- Skip JSON whitespace. -/
def skipWs (cs : List Char) : List Char :=
  cs.dropWhile jsonWs

/-- Hexadecimal digit value. -/
def hexVal (c : Char) : Option Nat :=
  if c.isDigit then some (c.toNat - 48)
  else if 'a' ≤ c ∧ c ≤ 'f' then some (c.toNat - 87)
  else if 'A' ≤ c ∧ c ≤ 'F' then some (c.toNat - 55)
  else none

/-- Read exactly four hex digits. -/
def readHex4 : List Char → Option (Nat × List Char)
  | c1 :: c2 :: c3 :: c4 :: rest =>
    match hexVal c1, hexVal c2, hexVal c3, hexVal c4 with
    | some h1, some h2, some h3, some h4 =>
      some (((h1 * 16 + h2) * 16 + h3) * 16 + h4, rest)
    | _, _, _, _ => none
  | _ => none

/-- Body of a JSON string after the opening quote: returns the decoded
characters and the input after the closing quote. Escapes as in
encoding/json: the eight simple escapes, unicode escapes with surrogate
pairs combined and unpaired surrogates replaced by U+FFFD, and a decode
error on raw control characters, invalid escapes, or a missing close quote.
The fuel argument bounds recursion; callers pass more fuel than the
input length, so it never runs out. -/
def parseStringBody : Nat → List Char → Option (List Char × List Char)
  | 0, _ => none
  | fuel + 1, cs =>
    match cs with
    | [] => none
    | '"' :: rest => some ([], rest)
    | '\\' :: rest =>
      match rest with
      | '"' :: r => (parseStringBody fuel r).map (fun p => ('"' :: p.1, p.2))
      | '\\' :: r => (parseStringBody fuel r).map (fun p => ('\\' :: p.1, p.2))
      | '/' :: r => (parseStringBody fuel r).map (fun p => ('/' :: p.1, p.2))
      | 'b' :: r => (parseStringBody fuel r).map (fun p => ('\x08' :: p.1, p.2))
      | 'f' :: r => (parseStringBody fuel r).map (fun p => ('\x0c' :: p.1, p.2))
      | 'n' :: r => (parseStringBody fuel r).map (fun p => ('\n' :: p.1, p.2))
      | 'r' :: r => (parseStringBody fuel r).map (fun p => ('\r' :: p.1, p.2))
      | 't' :: r => (parseStringBody fuel r).map (fun p => ('\t' :: p.1, p.2))
      | 'u' :: r =>
        match readHex4 r with
        | none => none
        | some (n, r2) =>
          if 0xD800 ≤ n ∧ n ≤ 0xDBFF then
            match r2 with
            | '\\' :: 'u' :: r3 =>
              match readHex4 r3 with
              | some (m, r4) =>
                if 0xDC00 ≤ m ∧ m ≤ 0xDFFF then
                  (parseStringBody fuel r4).map (fun p =>
                    (Char.ofNat (0x10000 + (n - 0xD800) * 0x400 + (m - 0xDC00)) :: p.1, p.2))
                else
                  (parseStringBody fuel r2).map (fun p => (Char.ofNat 0xFFFD :: p.1, p.2))
              | none =>
                (parseStringBody fuel r2).map (fun p => (Char.ofNat 0xFFFD :: p.1, p.2))
            | _ =>
              (parseStringBody fuel r2).map (fun p => (Char.ofNat 0xFFFD :: p.1, p.2))
          else if 0xDC00 ≤ n ∧ n ≤ 0xDFFF then
            (parseStringBody fuel r2).map (fun p => (Char.ofNat 0xFFFD :: p.1, p.2))
          else
            (parseStringBody fuel r2).map (fun p => (Char.ofNat n :: p.1, p.2))
      | _ => none
    | c :: rest =>
      if c.toNat < 0x20 then none
      else (parseStringBody fuel rest).map (fun p => (c :: p.1, p.2))

/-- Exponent digits of a JSON number: optional sign, then one or more
digits; returns the rest of the input. -/
def parseExpDigits (cs : List Char) : Option (List Char) :=
  let cs1 := match cs with
    | '+' :: r => r
    | '-' :: r => r
    | r => r
  match cs1 with
  | d :: _ => if d.isDigit then some (cs1.dropWhile (fun c => c.isDigit)) else none
  | [] => none

/-- Optional exponent of a JSON number. -/
def parseExpPart : List Char → Option (List Char)
  | 'e' :: rest => parseExpDigits rest
  | 'E' :: rest => parseExpDigits rest
  | cs => some cs

/-- Fraction and exponent of a JSON number, after the integer part. -/
def parseFracExp (cs : List Char) : Option (Json × List Char) :=
  match cs with
  | '.' :: r =>
    match r with
    | d :: _ =>
      if d.isDigit then
        (parseExpPart (r.dropWhile (fun c => c.isDigit))).map (fun rest => (Json.num, rest))
      else none
    | [] => none
  | _ => (parseExpPart cs).map (fun rest => (Json.num, rest))

/-- A JSON number, strict grammar: optional minus, then either a single
zero or a nonzero digit followed by digits, then optional fraction and
exponent. -/
def parseNumberTail (cs : List Char) : Option (Json × List Char) :=
  let cs1 := match cs with
    | '-' :: r => r
    | r => r
  match cs1 with
  | '0' :: r =>
    match r with
    | d :: _ => if d.isDigit then none else parseFracExp r
    | [] => parseFracExp []
  | d :: _ => if d.isDigit then parseFracExp (cs1.dropWhile (fun c => c.isDigit)) else none
  | [] => none

mutual

/-- A JSON value. Fuel strictly decreases on every nested call and callers
provide far more fuel than the input length requires. -/
def parseValue : Nat → List Char → Option (Json × List Char)
  | 0, _ => none
  | fuel + 1, cs =>
    match skipWs cs with
    | 'n' :: 'u' :: 'l' :: 'l' :: rest => some (Json.null, rest)
    | 't' :: 'r' :: 'u' :: 'e' :: rest => some (Json.bool true, rest)
    | 'f' :: 'a' :: 'l' :: 's' :: 'e' :: rest => some (Json.bool false, rest)
    | '"' :: rest =>
      match parseStringBody fuel rest with
      | some (chars, rest2) => some (Json.str (String.mk chars), rest2)
      | none => none
    | '{' :: rest =>
      match skipWs rest with
      | '}' :: rest2 => some (Json.obj [], rest2)
      | cs2 =>
        match parseMembers fuel cs2 with
        | some (fields, rest2) => some (Json.obj fields, rest2)
        | none => none
    | '[' :: rest =>
      match skipWs rest with
      | ']' :: rest2 => some (Json.arr [], rest2)
      | cs2 =>
        match parseItems fuel cs2 with
        | some (items, rest2) => some (Json.arr items, rest2)
        | none => none
    | c :: rest =>
      if c = '-' || c.isDigit then parseNumberTail (c :: rest) else none
    | [] => none

/-- One or more members of a JSON object, ending at the closing brace
(no trailing comma allowed, as in encoding/json). -/
def parseMembers : Nat → List Char → Option (List (String × Json) × List Char)
  | 0, _ => none
  | fuel + 1, cs =>
    match skipWs cs with
    | '"' :: rest =>
      match parseStringBody fuel rest with
      | some (kchars, rest2) =>
        match skipWs rest2 with
        | ':' :: rest3 =>
          match parseValue fuel rest3 with
          | some (v, rest4) =>
            match skipWs rest4 with
            | ',' :: rest5 =>
              match parseMembers fuel rest5 with
              | some (fields, rest6) => some ((String.mk kchars, v) :: fields, rest6)
              | none => none
            | '}' :: rest5 => some ([(String.mk kchars, v)], rest5)
            | _ => none
          | none => none
        | _ => none
      | none => none
    | _ => none

/-- One or more items of a JSON array, ending at the closing bracket. -/
def parseItems : Nat → List Char → Option (List Json × List Char)
  | 0, _ => none
  | fuel + 1, cs =>
    match parseValue fuel cs with
    | some (v, rest) =>
      match skipWs rest with
      | ',' :: rest2 =>
        match parseItems fuel rest2 with
        | some (items, rest3) => some (v :: items, rest3)
        | none => none
      | ']' :: rest2 => some ([v], rest2)
      | _ => none
    | none => none

end

/-- Parse a whole string as one JSON value; trailing whitespace is allowed,
any other trailing input is a decode error (as in json.Unmarshal). -/
def parseJson (s : String) : Option Json :=
  match parseValue (8 * s.length + 64) s.toList with
  | some (j, rest) => if (skipWs rest).isEmpty then some j else none
  | none => none

/-- Lookup of the error field among the members of a JSON object; with
duplicate keys the last occurrence wins, as in encoding/json. -/
def errorFieldLookup : List (String × Json) → Option Json
  | [] => none
  | kv :: rest =>
    match errorFieldLookup rest with
    | some w => some w
    | none => if kv.1 = "error" then some kv.2 else none

/-- Modelled from the spec: json.Unmarshal of a response body into
schema.ErrorResponse (the schema package is not in the sources; the spec
defines the wire format as a JSON object with a field named error holding a
string, other shapes being opaque). Returns some s when unmarshalling
succeeds with error-field value s (the empty string when the field is
absent or null, or the whole document is null, matching the Go zero value),
and none when unmarshalling fails (not valid JSON, top level not an object
or null, or an error field that is not a string). -/
def unmarshalErrorResponse (body : String) : Option String :=
  match parseJson body with
  | none => none
  | some Json.null => some ""
  | some (Json.obj fields) =>
    match errorFieldLookup fields with
    | none => some ""
    | some (Json.str s) => some s
    | some Json.null => some ""
    | some _ => none
  | some _ => none

/-- The response-classification logic of makeRequest, given the response
status code and the fully read body: on a non-200 status, unmarshal the
body into the error envelope and return the error field when that succeeds
with a non-empty field, the raw body text otherwise; on a 200 status return
the body bytes unchanged. -/
def makeRequestResult (status : Nat) (body : String) : Except String String :=
  if status ≠ 200 then
    match unmarshalErrorResponse body with
    | none => Except.error body
    | some e => if e = "" then Except.error body else Except.error e
  else Except.ok body

/-- Modelled from the spec: the canned failed-to-connect message of
pkg/api/strings (not in the sources), carrying a URL. -/
def ErrFailedToConnect (u : String) : String :=
  "failed to connect to " ++ u

/-- What the transport layer produced for a dispatched request: a
transport-level failure of httpClient.Do, or a response with status and
body. -/
inductive TransportOutcome where
  | failure
  | response (status : Nat) (body : String)

/-- makeRequest after header attachment: a transport failure is mapped to
the failed-to-connect message carrying the sanitized URL (util.CleanURL is
not in the sources and is passed as the parameter cleanURL); a response is
classified by makeRequestResult. -/
def makeRequest (cleanURL : String → String) (url : String) :
    TransportOutcome → Except String String
  | TransportOutcome.failure => Except.error (ErrFailedToConnect (cleanURL url))
  | TransportOutcome.response status body => makeRequestResult status body

/-- C1: response unification in makeRequest. For a non-200 status whose
body unmarshals as the error envelope with a non-empty error field, the
returned error message is exactly that field value; for a non-200 status
whose body does not unmarshal, or unmarshals with an absent or empty error
field, the returned error message is the raw body text verbatim; for a 200
status the returned bytes are the body unchanged. -/
theorem claim_C1_response_unification (status : Nat) (body : String) :
    (status ≠ 200 → ∀ e, unmarshalErrorResponse body = some e → e ≠ "" →
      makeRequestResult status body = Except.error e) ∧
    (status ≠ 200 →
      (unmarshalErrorResponse body = none ∨ unmarshalErrorResponse body = some "") →
      makeRequestResult status body = Except.error body) ∧
    (status = 200 → makeRequestResult status body = Except.ok body) := by
  refine ⟨?_, ?_, ?_⟩
  · intro hs e he hne
    simp [makeRequestResult, hs, he, hne]
  · intro hs hu
    rcases hu with h | h <;> simp [makeRequestResult, hs, h]
  · intro hs
    simp [makeRequestResult, hs]

/-- Witness for C1 at concrete inputs: a 500 with a structured error body
yields exactly the error field, a 500 with an opaque body yields the body
verbatim, and a 200 returns the body unchanged. -/
theorem claim_C1_response_unification_witness :
    makeRequestResult 500 "\x7b\"error\":\"X\"\x7d" = Except.error "X" ∧
    makeRequestResult 500 "plain failure text" = Except.error "plain failure text" ∧
    makeRequestResult 200 "payload-bytes" = Except.ok "payload-bytes" :=
  ⟨(claim_C1_response_unification 500 "\x7b\"error\":\"X\"\x7d").1 (by decide)
      "X" (by decide) (by decide),
   (claim_C1_response_unification 500 "plain failure text").2.1 (by decide)
      (Or.inl (by decide)),
   (claim_C1_response_unification 200 "payload-bytes").2.2 rfl⟩

/-
operatorRequest: URL construction and query-parameter merging.
url.Values is map from string to list of string; it is modelled as a
function from key to the stored list. Query() parses the raw query of the
endpoint (appending multiple values of the same key in order), Set replaces
the stored list with a singleton, Encode writes every stored key back into
the URL. A single qParams map is modelled as an association list; the keys
of a single Go map are distinct, and within one map the iteration order
cannot affect the final value of any key.
-/

/-- url.Values.Set: replace the values stored for a key by the singleton. -/
def valuesSet (vs : String → List String) (k v : String) : String → List String :=
  fun q => if q = k then [v] else vs q

/-- The inner loop of operatorRequest: apply Set for every pair of one
qParams map. -/
def applyParamMap (vs : String → List String) (m : List (String × String)) :
    String → List String :=
  m.foldl (fun acc kv => valuesSet acc kv.1 kv.2) vs

/-- The outer loop of operatorRequest: apply every qParams map in argument
order to the values parsed from the endpoint URL. -/
def operatorRequestValues (vs : String → List String)
    (qParams : List (List (String × String))) : String → List String :=
  qParams.foldl applyParamMap vs

/-- The value a single association list assigns to a key (the last
occurrence; for a list that models a Go map the keys are distinct, so this
is the value of the key). -/
def mapLast : List (String × String) → String → Option String
  | [], _ => none
  | kv :: rest, k =>
    match mapLast rest k with
    | some v => some v
    | none => if k = kv.1 then some kv.2 else none

/-- The value assigned to a key by the last map of the argument list that
contains it. -/
def lastLookup : List (List (String × String)) → String → Option String
  | [], _ => none
  | m :: ms, k =>
    match lastLookup ms k with
    | some v => some v
    | none => mapLast m k

theorem applyParamMap_apply (m : List (String × String)) (vs : String → List String)
    (k : String) :
    applyParamMap vs m k =
      match mapLast m k with
      | some v => [v]
      | none => vs k := by
  induction m generalizing vs with
  | nil => rfl
  | cons kv rest ih =>
    rw [show applyParamMap vs (kv :: rest) k
        = applyParamMap (valuesSet vs kv.1 kv.2) rest k from rfl, ih]
    cases h : mapLast rest k with
    | some v => simp [mapLast, h]
    | none =>
      by_cases hk : k = kv.1
      · subst hk
        simp [mapLast, h, valuesSet]
      · simp [mapLast, h, valuesSet, hk]

theorem operatorRequestValues_apply (qParams : List (List (String × String)))
    (vs : String → List String) (k : String) :
    operatorRequestValues vs qParams k =
      match lastLookup qParams k with
      | some v => [v]
      | none => vs k := by
  induction qParams generalizing vs with
  | nil => rfl
  | cons m ms ih =>
    rw [show operatorRequestValues vs (m :: ms) k
        = operatorRequestValues (applyParamMap vs m) ms k from rfl, ih]
    cases h : lastLookup ms k with
    | some v => simp [lastLookup, h]
    | none => simp [lastLookup, h, applyParamMap_apply]

/-- C5: in operatorRequest, later query-parameter maps override earlier
ones per key: for every key contained in at least one of the maps, the
final URL values store exactly the singleton holding the value of that key
in the last map that contains it; every key contained in no map keeps the
values it had from the endpoint URL (in particular, every key of any map
ends up present in the final URL). The nodup hypothesis records that each
argument is a Go map, whose keys are distinct. -/
theorem claim_C5_qparams_override (vs0 : String → List String)
    (qParams : List (List (String × String))) (k : String)
    (_hmaps : ∀ m ∈ qParams, (m.map Prod.fst).Nodup) :
    (∀ v, lastLookup qParams k = some v → operatorRequestValues vs0 qParams k = [v]) ∧
    (lastLookup qParams k = none → operatorRequestValues vs0 qParams k = vs0 k) := by
  constructor
  · intro v hv
    rw [operatorRequestValues_apply, hv]
  · intro hn
    rw [operatorRequestValues_apply, hn]

/-- Witness for C5 at concrete inputs: with maps assigning a to 1 and b to
2, then a to 3, the final values are 3 for a (overridden by the later map)
and 2 for b (not overridden, still present). -/
theorem claim_C5_qparams_override_witness :
    operatorRequestValues (fun _ => []) [[("a", "1"), ("b", "2")], [("a", "3")]] "a" = ["3"] ∧
    operatorRequestValues (fun _ => []) [[("a", "1"), ("b", "2")], [("a", "3")]] "b" = ["2"] :=
  ⟨(claim_C5_qparams_override (fun _ => []) [[("a", "1"), ("b", "2")], [("a", "3")]] "a"
      (by decide)).1 "3" (by decide),
   (claim_C5_qparams_override (fun _ => []) [[("a", "1"), ("b", "2")], [("a", "3")]] "b"
      (by decide)).1 "2" (by decide)⟩

/-- The raw query of the URL that http.NewRequest parses from the
concatenation of the configured base URL and the endpoint: the part of the
endpoint after the first question mark and before any number sign (the
configured base URL carries no query of its own). -/
def rawQueryOf (endpoint : String) : String :=
  String.mk ((((endpoint.toList).dropWhile (fun c => c != '?')).drop 1).takeWhile
    (fun c => c != '#'))

/-- Split a raw query on ampersand and semicolon separators, as
url.ParseQuery of the Go version in use does. -/
def splitQuerySegs : List Char → List Char → List (List Char)
  | acc, [] => [acc.reverse]
  | acc, c :: rest =>
    if c = '&' || c = ';' then acc.reverse :: splitQuerySegs [] rest
    else splitQuerySegs (c :: acc) rest

/-- url.QueryUnescape on the characters of one key or value: plus becomes
space, a percent must be followed by two hex digits and becomes the encoded
byte, anything else passes through; invalid escapes are an error and make
ParseQuery drop the pair. -/
def queryUnescape : List Char → Option (List Char)
  | [] => some []
  | '%' :: c1 :: c2 :: rest =>
    match hexVal c1, hexVal c2 with
    | some h1, some h2 => (queryUnescape rest).map (fun t => Char.ofNat (16 * h1 + h2) :: t)
    | _, _ => none
  | '%' :: _ => none
  | '+' :: rest => (queryUnescape rest).map (fun t => ' ' :: t)
  | c :: rest => (queryUnescape rest).map (fun t => c :: t)

/-- One segment of a raw query: an empty segment is skipped; otherwise the
key is the part before the first equals sign and the value the part after
it, both query-unescaped, the pair being dropped when unescaping fails. -/
def parseQuerySeg (seg : List Char) : Option (String × String) :=
  if seg.isEmpty then none
  else
    let ks := seg.takeWhile (fun c => c != '=')
    let vs := (seg.dropWhile (fun c => c != '=')).drop 1
    match queryUnescape ks, queryUnescape vs with
    | some kd, some vd => some (String.mk kd, String.mk vd)
    | _, _ => none

/-- url.ParseQuery as used by req.URL.Query(): the values function mapping
each key to the list of its values in the raw query, in order. -/
def parseQueryValues (raw : String) : String → List String :=
  fun k =>
    (((splitQuerySegs [] raw.toList).filterMap parseQuerySeg).filter
      (fun p => p.1 = k)).map (fun p => p.2)

/-- The full query construction of operatorRequest: initial values parsed
from the query embedded in the endpoint, then every qParams map applied in
order. -/
def operatorRequestURLValues (endpoint : String)
    (qParams : List (List (String × String))) : String → List String :=
  operatorRequestValues (parseQueryValues (rawQueryOf endpoint)) qParams

/-- C10: query parameters embedded in the endpoint string survive into the
final URL, acting as the earliest mapping in the override order: a key
contained in no qParams map keeps exactly the values parsed from the
endpoint, and a key contained in some qParams map is overridden to the
value of the last map containing it. -/
theorem claim_C10_endpoint_query_preserved (endpoint : String)
    (qParams : List (List (String × String))) (k : String) :
    (lastLookup qParams k = none →
      operatorRequestURLValues endpoint qParams k
        = parseQueryValues (rawQueryOf endpoint) k) ∧
    (∀ v, lastLookup qParams k = some v →
      operatorRequestURLValues endpoint qParams k = [v]) := by
  constructor
  · intro hn
    rw [operatorRequestURLValues, operatorRequestValues_apply, hn]
  · intro v hv
    rw [operatorRequestURLValues, operatorRequestValues_apply, hv]

/-- Witness for C10 at concrete inputs: endpoint with embedded query a=1
and b=2 and one explicit map setting a to 3; b keeps its embedded value 2,
a is overridden to 3. -/
theorem claim_C10_endpoint_query_preserved_witness :
    operatorRequestURLValues "/logs/read?a=1&b=2" [[("a", "3")]] "b" = ["2"] ∧
    operatorRequestURLValues "/logs/read?a=1&b=2" [[("a", "3")]] "a" = ["3"] :=
  ⟨((claim_C10_endpoint_query_preserved "/logs/read?a=1&b=2" [[("a", "3")]] "b").1
      (by decide)).trans (by decide),
   (claim_C10_endpoint_query_preserved "/logs/read?a=1&b=2" [[("a", "3")]] "a").2
      "3" (by decide)⟩

/-
HTTPUpload: multi-part body construction. multipart.Writer appends one part
per CreateFormFile call; a part records the form field name, the file name
(HTTPUpload passes the logical name as both) and the copied content. The
two maps of HTTPUploadInput are modelled as association lists; the claims
about them use singleton maps, for which the unspecified iteration order of
a Go map cannot matter.
-/

/-- One part of a multi-part body. -/
structure Part where
  fieldName : String
  fileName : String
  content : String
  deriving DecidableEq

/-- addFileToMultipart from lib_client.go: CreateFormFile with the logical
name as both field name and file name, then io.Copy of the reader content
into the part. The writer state is the list of parts written so far. -/
def addFileToMultipart (fileName : String) (parts : List Part) (content : String) :
    List Part :=
  parts ++ [⟨fileName, fileName, content⟩]

/-- The input of HTTPUpload: logical name to source file path, and logical
name to in-memory bytes. -/
structure HTTPUploadInput where
  FilePaths : List (String × String)
  Bytes : List (String × String)

/-- The first loop of HTTPUpload: for every file-path entry, open the file
(an absent file is the os.Open error path and aborts the whole upload) and
append its content as a part. The file system is a function from path to
optional content. -/
def addFilePathParts (fs : String → Option String) :
    List (String × String) → List Part → Option (List Part)
  | [], parts => some parts
  | (name, path) :: rest, parts =>
    match fs path with
    | none => none
    | some content => addFilePathParts fs rest (addFileToMultipart name parts content)

/-- The second loop of HTTPUpload: append one part per in-memory entry. -/
def addBytesParts : List (String × String) → List Part → List Part
  | [], parts => parts
  | (name, bytes) :: rest, parts => addBytesParts rest (addFileToMultipart name parts bytes)

/-- The body HTTPUpload encodes: all file-path parts, then all in-memory
parts (writer.Close only emits the trailing boundary and is not modelled). -/
def HTTPUpload (fs : String → Option String) (input : HTTPUploadInput) :
    Option (List Part) :=
  match addFilePathParts fs input.FilePaths [] with
  | none => none
  | some parts => some (addBytesParts input.Bytes parts)

/-- Retrieval of a part by form field name, as a multipart form reader such
as Go FormFile does: the first part whose field name matches. -/
def formFile : List Part → String → Option String
  | [], _ => none
  | part :: rest, name =>
    if part.fieldName = name then some part.content else formFile rest name

/-- C6: an upload spec with exactly one file-path entry and one in-memory
entry encodes to exactly two parts, the file-path part first, each named by
its logical name as both field name and file name and carrying the source
content unmodified, and each retrievable by its logical name. The
hypothesis that the two logical names differ is the uniqueness the spec
requires of the combined name space. -/
theorem claim_C6_upload_roundtrip (fs : String → Option String)
    (n1 p1 n2 b c : String) (hne : n1 ≠ n2) (hfs : fs p1 = some c) :
    HTTPUpload fs ⟨[(n1, p1)], [(n2, b)]⟩ = some [⟨n1, n1, c⟩, ⟨n2, n2, b⟩] ∧
    formFile [⟨n1, n1, c⟩, ⟨n2, n2, b⟩] n1 = some c ∧
    formFile [⟨n1, n1, c⟩, ⟨n2, n2, b⟩] n2 = some b := by
  refine ⟨?_, ?_, ?_⟩
  · simp [HTTPUpload, addFilePathParts, addBytesParts, addFileToMultipart, hfs]
  · simp [formFile]
  · simp [formFile, hne]

/-- Witness for C6 at concrete inputs. -/
theorem claim_C6_upload_roundtrip_witness :
    HTTPUpload (fun p => if p = "cfg.yaml" then some "yaml-content" else none)
        ⟨[("config", "cfg.yaml")], [("archive", "zip-bytes")]⟩
      = some [⟨"config", "config", "yaml-content"⟩, ⟨"archive", "archive", "zip-bytes"⟩] ∧
    formFile [⟨"config", "config", "yaml-content"⟩, ⟨"archive", "archive", "zip-bytes"⟩]
      "config" = some "yaml-content" ∧
    formFile [⟨"config", "config", "yaml-content"⟩, ⟨"archive", "archive", "zip-bytes"⟩]
      "archive" = some "zip-bytes" :=
  claim_C6_upload_roundtrip (fun p => if p = "cfg.yaml" then some "yaml-content" else none)
    "config" "cfg.yaml" "archive" "zip-bytes" "yaml-content" (by decide) (by decide)

/-- Counterexample for C7 as stated: with the same logical name in the
file-path map and the in-memory map, the encoded body carries two parts
under that name, not a single part, and retrieval by name yields the
file-path content, not the later in-memory content. -/
theorem claim_C7_counterexample :
    HTTPUpload (fun p => if p = "src.txt" then some "FILECONTENT" else none)
        ⟨[("dup", "src.txt")], [("dup", "MEMCONTENT")]⟩
      = some [⟨"dup", "dup", "FILECONTENT"⟩, ⟨"dup", "dup", "MEMCONTENT"⟩] ∧
    ([(⟨"dup", "dup", "FILECONTENT"⟩ : Part), ⟨"dup", "dup", "MEMCONTENT"⟩].length = 2) ∧
    formFile [⟨"dup", "dup", "FILECONTENT"⟩, ⟨"dup", "dup", "MEMCONTENT"⟩] "dup"
      = some "FILECONTENT" ∧
    some "FILECONTENT" ≠ some "MEMCONTENT" := by
  exact ⟨by decide, by decide, by decide, by decide⟩

/-- C7 amended: when the same logical name appears in both maps, no
overwriting occurs in the encoded body: it carries one part per entry, the
file-path part first with the file content and the in-memory part second
with its bytes, and first-match retrieval by the shared name yields the
file-path content. -/
theorem claim_C7_name_collision_amended (fs : String → Option String)
    (n p b c : String) (hfs : fs p = some c) :
    HTTPUpload fs ⟨[(n, p)], [(n, b)]⟩ = some [⟨n, n, c⟩, ⟨n, n, b⟩] ∧
    formFile [⟨n, n, c⟩, ⟨n, n, b⟩] n = some c := by
  constructor
  · simp [HTTPUpload, addFilePathParts, addBytesParts, addFileToMultipart, hfs]
  · simp [formFile]

/-- Witness for the amended C7 at concrete inputs. -/
theorem claim_C7_name_collision_amended_witness :
    HTTPUpload (fun p => if p = "w.txt" then some "AAA" else none)
        ⟨[("k", "w.txt")], [("k", "BBB")]⟩
      = some [⟨"k", "k", "AAA"⟩, ⟨"k", "k", "BBB"⟩] ∧
    formFile [⟨"k", "k", "AAA"⟩, ⟨"k", "k", "BBB"⟩] "k" = some "AAA" :=
  claim_C7_name_collision_amended (fun p => if p = "w.txt" then some "AAA" else none)
    "k" "w.txt" "BBB" "AAA" (by decide)

/-
handleConnection: the completion-marker pattern and timestamp handling.
The Go pattern is anchored at the start of the text: the literal
workload-colon-space, a capture of one or more word characters, the literal
comma-space-completed-colon-space, and a capture of one or more non-space
characters; anything may follow. Because a comma is not a word character
and nothing follows the second capture, both captures are the maximal runs,
so the match is modelled without backtracking.
-/

/-- A word character of the RE2 class, ASCII letters, digits and the
underscore. -/
def isWordChar (c : Char) : Bool :=
  c.isAlphanum || c = '_'

/-- A whitespace character of the RE2 class: space, tab, newline, form
feed, carriage return. -/
def isGoSpace (c : Char) : Bool :=
  c = ' ' || c = '\t' || c = '\n' || c = '\x0c' || c = '\r'

/-- Consume an exact literal from the front of the input. -/
def dropLiteral : List Char → List Char → Option (List Char)
  | [], cs => some cs
  | _ :: _, [] => none
  | l :: ls, c :: cs => if c = l then dropLiteral ls cs else none

/-- The completion-marker match of handleConnection: on success returns the
two captures, the workload identifier and the timestamp text. -/
def lastLogMatch (msgStr : String) : Option (String × String) :=
  match dropLiteral "workload: ".toList msgStr.toList with
  | none => none
  | some r1 =>
    let w := r1.takeWhile isWordChar
    if w.isEmpty then none
    else
      match dropLiteral ", completed: ".toList (r1.dropWhile isWordChar) with
      | none => none
      | some r2 =>
        let t := r2.takeWhile (fun c => !(isGoSpace c))
        if t.isEmpty then none
        else some (String.mk w, String.mk t)

/-- A parsed RFC3339 instant, as time.Parse produces it: date and clock
fields, nanoseconds from an optional fraction, and the zone offset in
minutes. -/
structure GoTime where
  year : Nat
  month : Nat
  day : Nat
  hour : Nat
  minute : Nat
  second : Nat
  nanosecond : Nat
  offsetMinutes : Int
  deriving DecidableEq

/-- Leap year as the Gregorian calendar has it. -/
def isLeapYear (y : Nat) : Bool :=
  y % 4 = 0 && (y % 100 ≠ 0 || y % 400 = 0)

/-- Days of a month. -/
def daysInMonth (y m : Nat) : Nat :=
  if m = 2 then (if isLeapYear y then 29 else 28)
  else if m = 4 || m = 6 || m = 9 || m = 11 then 30
  else 31

/-- A decimal digit value. -/
def digitVal (c : Char) : Option Nat :=
  if c.isDigit then some (c.toNat - 48) else none

/-- Read exactly two digits. -/
def read2 : List Char → Option (Nat × List Char)
  | c1 :: c2 :: rest =>
    match digitVal c1, digitVal c2 with
    | some d1, some d2 => some (10 * d1 + d2, rest)
    | _, _ => none
  | _ => none

/-- Read exactly four digits. -/
def read4 : List Char → Option (Nat × List Char)
  | c1 :: c2 :: c3 :: c4 :: rest =>
    match digitVal c1, digitVal c2, digitVal c3, digitVal c4 with
    | some d1, some d2, some d3, some d4 =>
      some (1000 * d1 + 100 * d2 + 10 * d3 + d4, rest)
    | _, _, _, _ => none
  | _ => none

/-- Consume one expected character. -/
def expectChar (c : Char) : List Char → Option (List Char)
  | d :: rest => if d = c then some rest else none
  | [] => none

/-- Nanoseconds from the digits of a fraction: the first nine digits,
right-padded to nine places. -/
def nanoFromDigits (ds : List Char) : Nat :=
  (ds.take 9).foldl (fun acc c => 10 * acc + (c.toNat - 48)) 0
    * 10 ^ (9 - (ds.take 9).length)

/-- The optional fractional second time.Parse accepts after the seconds
even though the RFC3339 layout has none: a period followed by at least one
digit; a period not followed by a digit is left in place (and then fails
the zone parse). -/
def parseFractionOpt : List Char → Nat × List Char
  | '.' :: rest =>
    match rest with
    | d :: _ =>
      if d.isDigit then
        (nanoFromDigits (rest.takeWhile (fun c => c.isDigit)),
          rest.dropWhile (fun c => c.isDigit))
      else (0, '.' :: rest)
    | [] => (0, ['.'])
  | cs => (0, cs)

/-- A numeric zone offset, hours-colon-minutes, in minutes. -/
def parseZoneOffset (cs : List Char) : Option (Nat × List Char) :=
  match read2 cs with
  | none => none
  | some (hh, rest) =>
    match rest with
    | ':' :: rest2 =>
      match read2 rest2 with
      | some (mm, rest3) =>
        if hh ≤ 23 ∧ mm ≤ 59 then some (60 * hh + mm, rest3) else none
      | none => none
    | _ => none

/-- The zone of the RFC3339 layout: the letter Z for UTC, or a signed
hours-colon-minutes offset. -/
def parseZone : List Char → Option (Int × List Char)
  | 'Z' :: rest => some (0, rest)
  | '+' :: rest => (parseZoneOffset rest).map (fun p => (Int.ofNat p.1, p.2))
  | '-' :: rest => (parseZoneOffset rest).map (fun p => (-(Int.ofNat p.1 : Int), p.2))
  | _ => none

/-- time.Parse with the RFC3339 layout: four-digit year, two-digit month,
day, hour, minute and second with the literal separators, an optional
fractional second, a zone, nothing after it, and the range checks of the
Go parser. -/
def parseRFC3339 (s : String) : Option GoTime := do
  let (year, r1) ← read4 s.toList
  let r2 ← expectChar '-' r1
  let (month, r3) ← read2 r2
  let r4 ← expectChar '-' r3
  let (day, r5) ← read2 r4
  let r6 ← expectChar 'T' r5
  let (hour, r7) ← read2 r6
  let r8 ← expectChar ':' r7
  let (minute, r9) ← read2 r8
  let r10 ← expectChar ':' r9
  let (second, r11) ← read2 r10
  let (ns, r12) := parseFractionOpt r11
  let (offset, r13) ← parseZone r12
  if r13 = [] ∧ 1 ≤ month ∧ month ≤ 12 ∧ 1 ≤ day ∧ day ≤ daysInMonth year month
      ∧ hour ≤ 23 ∧ minute ≤ 59 ∧ second ≤ 59 then
    some ⟨year, month, day, hour, minute, second, ns, offset⟩
  else none

/-- The per-frame processing of the reader loop of handleConnection, as the
string handed to fmt.Println: a frame matching the completion marker whose
timestamp parses becomes a newline followed by Completed-on and the
local-time rendering of the timestamp (util.LocalTimestampHuman is
repository code not in the sources and is passed as the parameter
localHuman); a matching frame whose timestamp does not parse, and a
non-matching frame, are printed verbatim. -/
def processFrame (localHuman : GoTime → String) (msgStr : String) : String :=
  match lastLogMatch msgStr with
  | some (_, t) =>
    match parseRFC3339 t with
    | none => msgStr
    | some ts => "\nCompleted on " ++ localHuman ts
  | none => msgStr

/-- One result of connection.ReadMessage: a text frame, or a read error
(which in the websocket library includes a close frame from the peer). -/
inductive ReadResult where
  | msg (m : String)
  | err

/-- What the reader goroutine of handleConnection has done after consuming
a finite prefix of read results: the lines handed to fmt.Println in order,
whether os.Exit was reached (with its code), and whether the deferred
close of the done channel ran. -/
structure ReaderRun where
  printed : List String
  exit : Option Nat
  doneClosed : Bool
  deriving DecidableEq

/-- The reader goroutine of handleConnection over a finite prefix of read
results. A read error reaches os.Exit with code one, which terminates the
process at once: deferred calls do not run, so the done channel is not
closed. The loop has no other exit: when the prefix is exhausted the
goroutine is still blocked in ReadMessage, and the deferred close of done
is never reached on any path. -/
def runReader (localHuman : GoTime → String) : List ReadResult → ReaderRun
  | [] => ⟨[], none, false⟩
  | ReadResult.err :: _ => ⟨[], some 1, false⟩
  | ReadResult.msg m :: rest =>
    let r := runReader localHuman rest
    ⟨processFrame localHuman m :: r.printed, r.exit, r.doneClosed⟩

/-- Which of the two awaited events fires first in closeConnection. -/
inductive CoordEvent where
  | done
  | interrupt

/-- What closeConnection does before returning: nothing beyond returning
when the done channel fires first, or a WriteMessage of a close frame with
the given close code when the interrupt fires first. Either branch of the
select returns; closeConnection itself never terminates the process. -/
inductive CloseStep where
  | returnNoSend
  | sendCloseFrame (code : Nat)
  deriving DecidableEq

/-- closeConnection from lib_client.go: a select on the done channel and
the interrupt channel; done returns directly, interrupt writes a close
message built by FormatCloseMessage with CloseNormalClosure (code 1000)
and returns. -/
def closeConnection : CoordEvent → CloseStep
  | CoordEvent.done => CloseStep.returnNoSend
  | CoordEvent.interrupt => CloseStep.sendCloseFrame 1000

theorem runReader_doneClosed (localHuman : GoTime → String) :
    ∀ events, (runReader localHuman events).doneClosed = false
  | [] => rfl
  | ReadResult.err :: _ => rfl
  | ReadResult.msg _ :: rest => runReader_doneClosed localHuman rest

/-- Counterexample for C3 as stated: when the server closes the stream
first (no interrupt), the read error makes the reader goroutine call
os.Exit with code one, so the process terminates; the done channel is
never closed, hence the session cannot return via the completion signal. -/
theorem claim_C3_counterexample :
    (runReader (fun _ => "") [ReadResult.err]).exit = some 1 ∧
    (runReader (fun _ => "") [ReadResult.err]).doneClosed = false := by
  exact ⟨rfl, rfl⟩

/-- C3 amended: if an OS interrupt arrives first, closeConnection sends a
normal-closure (code 1000) close frame and returns, without terminating the
process (a completion signal firing first likewise just returns); but if
the server closes the stream first, the resulting read error makes the
reader call os.Exit with code one, terminating the whole process, and the
deferred close of the completion channel never runs on any reader path. -/
theorem claim_C3_interrupt_amended (localHuman : GoTime → String)
    (rest : List ReadResult) :
    closeConnection CoordEvent.interrupt = CloseStep.sendCloseFrame 1000 ∧
    closeConnection CoordEvent.done = CloseStep.returnNoSend ∧
    runReader localHuman (ReadResult.err :: rest) = ⟨[], some 1, false⟩ ∧
    (∀ events, (runReader localHuman events).doneClosed = false) := by
  exact ⟨rfl, rfl, rfl, runReader_doneClosed localHuman⟩

/-- C4: for every received log frame, a frame matching the completion
marker whose timestamp parses as RFC3339 is printed as the Completed-on
line carrying the local-time rendering of the timestamp (preceded by the
leading newline the source puts in the printed string); a matching frame
whose timestamp does not parse is printed verbatim; a non-matching frame is
printed verbatim; and processing a frame never ends the session (the
reader exit state is whatever the rest of the stream produces). -/
theorem claim_C4_completion_marker (localHuman : GoTime → String) (msgStr : String) :
    (∀ w t ts, lastLogMatch msgStr = some (w, t) → parseRFC3339 t = some ts →
      processFrame localHuman msgStr = "\nCompleted on " ++ localHuman ts) ∧
    (∀ w t, lastLogMatch msgStr = some (w, t) → parseRFC3339 t = none →
      processFrame localHuman msgStr = msgStr) ∧
    (lastLogMatch msgStr = none → processFrame localHuman msgStr = msgStr) ∧
    (∀ rest, (runReader localHuman (ReadResult.msg msgStr :: rest)).exit
      = (runReader localHuman rest).exit) := by
  refine ⟨?_, ?_, ?_, fun rest => rfl⟩
  · intro w t ts hm hp
    simp [processFrame, hm, hp]
  · intro w t hm hp
    simp [processFrame, hm, hp]
  · intro hm
    simp [processFrame, hm]

/-- Witness for C4 at the two concrete frames of the spec: a marker frame
with a parsable timestamp becomes the Completed-on line, and a marker frame
with an unparsable timestamp is printed verbatim. -/
theorem claim_C4_completion_marker_witness :
    processFrame (fun _ => "LOCALTIME") "workload: job1, completed: 2024-01-01T00:00:00Z"
      = "\nCompleted on LOCALTIME" ∧
    processFrame (fun _ => "LOCALTIME") "workload: job1, completed: not-a-time"
      = "workload: job1, completed: not-a-time" :=
  ⟨(claim_C4_completion_marker (fun _ => "LOCALTIME")
      "workload: job1, completed: 2024-01-01T00:00:00Z").1
      "job1" "2024-01-01T00:00:00Z" ⟨2024, 1, 1, 0, 0, 0, 0, 0⟩ (by decide) (by decide),
   (claim_C4_completion_marker (fun _ => "LOCALTIME")
      "workload: job1, completed: not-a-time").2.1
      "job1" "not-a-time" (by decide) (by decide)⟩

/-
StreamLogs: the connect phase. dialer.Dial yields a connection, a handshake
response and an error; the source first checks for a nil response (the
transport never answered), then for a dial error with a response (the
server rejected the handshake), and otherwise starts streaming. On a
rejection the body is read; ioutil.ReadAll of an empty body returns nil
bytes, so an unreadable, nil or empty body takes the failed-to-connect
branch, and only a non-empty body reaches the error-envelope decoding.
-/

/-- The outcome of dialer.Dial as the source distinguishes it: no response
at all, a rejected handshake with an optionally readable body (none models
a body read error; the empty string and a nil body coincide), or success. -/
inductive DialOutcome where
  | noResponse
  | rejected (body : Option String)
  | success

/-- How the connect phase of StreamLogs ends: a fatal errors.Exit with a
message, or entry into the streaming phase. -/
inductive ConnectResult where
  | fatalExit (msg : String)
  | streaming
  deriving DecidableEq

/-- The connect phase of StreamLogs over the dial outcome, with the
sanitizing util.CleanURL (not in the sources) passed as cleanURL: no
response exits with the failed-to-connect message on the sanitized
websocket URL; a rejection with an unreadable, nil or empty body does the
same; a rejection with a non-empty body exits with the decoded error field
when the envelope decodes with a non-empty field and with the raw body text
otherwise; a successful handshake proceeds to streaming. -/
def streamLogsConnect (cleanURL : String → String) (wsURL : String) :
    DialOutcome → ConnectResult
  | DialOutcome.noResponse => ConnectResult.fatalExit (ErrFailedToConnect (cleanURL wsURL))
  | DialOutcome.rejected none => ConnectResult.fatalExit (ErrFailedToConnect (cleanURL wsURL))
  | DialOutcome.rejected (some body) =>
    if body = "" then ConnectResult.fatalExit (ErrFailedToConnect (cleanURL wsURL))
    else
      match unmarshalErrorResponse body with
      | none => ConnectResult.fatalExit body
      | some e => if e = "" then ConnectResult.fatalExit body else ConnectResult.fatalExit e
  | DialOutcome.success => ConnectResult.streaming

/-- Counterexample for C8 as stated: a rejected handshake whose body is
empty is not surfaced as the raw body the way the response unifier would
surface it (makeRequestResult on the same empty body returns the empty raw
body), but as the failed-to-connect message, which is not the empty raw
body. -/
theorem claim_C8_counterexample :
    streamLogsConnect (fun u => u) "ws://operator/logs/read" (DialOutcome.rejected (some ""))
      = ConnectResult.fatalExit (ErrFailedToConnect "ws://operator/logs/read") ∧
    ErrFailedToConnect "ws://operator/logs/read" ≠ "" ∧
    makeRequestResult 400 "" = Except.error "" := by
  exact ⟨rfl, by decide, rfl⟩

/-- C8 amended: a transport-level dial with no handshake response fails
fatally with the failed-to-connect message carrying the sanitized URL; a
rejected handshake whose body is unreadable, nil or empty also fails
fatally with that message; a rejected handshake with a non-empty body is
decoded as the structured error envelope exactly as in the response
unifier, the process failing fatally with the error field when decoding
yields a non-empty field and with the raw body text otherwise. -/
theorem claim_C8_handshake_amended (cleanURL : String → String) (wsURL : String) :
    streamLogsConnect cleanURL wsURL DialOutcome.noResponse
      = ConnectResult.fatalExit (ErrFailedToConnect (cleanURL wsURL)) ∧
    streamLogsConnect cleanURL wsURL (DialOutcome.rejected none)
      = ConnectResult.fatalExit (ErrFailedToConnect (cleanURL wsURL)) ∧
    streamLogsConnect cleanURL wsURL (DialOutcome.rejected (some ""))
      = ConnectResult.fatalExit (ErrFailedToConnect (cleanURL wsURL)) ∧
    (∀ body e, body ≠ "" → unmarshalErrorResponse body = some e → e ≠ "" →
      streamLogsConnect cleanURL wsURL (DialOutcome.rejected (some body))
        = ConnectResult.fatalExit e) ∧
    (∀ body, body ≠ "" →
      (unmarshalErrorResponse body = none ∨ unmarshalErrorResponse body = some "") →
      streamLogsConnect cleanURL wsURL (DialOutcome.rejected (some body))
        = ConnectResult.fatalExit body) := by
  refine ⟨rfl, rfl, rfl, ?_, ?_⟩
  · intro body e hb he hne
    simp [streamLogsConnect, hb, he, hne]
  · intro body hb hu
    rcases hu with h | h <;> simp [streamLogsConnect, hb, h]

/-- Witness for the amended C8 at concrete inputs: a rejection body with a
structured error surfaces the error field, and an opaque rejection body is
surfaced verbatim. -/
theorem claim_C8_handshake_amended_witness :
    streamLogsConnect (fun u => u) "ws://op/logs/read"
        (DialOutcome.rejected (some "\x7b\"error\":\"bad api version\"\x7d"))
      = ConnectResult.fatalExit "bad api version" ∧
    streamLogsConnect (fun u => u) "ws://op/logs/read"
        (DialOutcome.rejected (some "gateway timeout"))
      = ConnectResult.fatalExit "gateway timeout" :=
  ⟨(claim_C8_handshake_amended (fun u => u) "ws://op/logs/read").2.2.2.1
      "\x7b\"error\":\"bad api version\"\x7d" "bad api version"
      (by decide) (by decide) (by decide),
   (claim_C8_handshake_amended (fun u => u) "ws://op/logs/read").2.2.2.2
      "gateway timeout" (by decide) (Or.inl (by decide))⟩

/-
The Delete endpoint of the operator (src/pkg/operator/endpoints/delete.go).
The endpoint helper functions getRequiredQParam, getOptionalBoolQParam,
RespondIfError, RespondError and Respond, the message strings of
pkg/api/strings and the workloads collaborator are repository code outside
the sources; they are modelled from the spec: appName is a required query
parameter, keepCache an optional boolean defaulting to false, the
collaborator reports whether the application was deployed, an error
response carries a single message, and the success response is the fixed
deletion-succeeded message.
-/

/-- Modelled from the spec: the message of the error response for a
missing required query parameter. -/
def ErrQueryParamRequired (param : String) : String :=
  "query param required: " ++ param

/-- Modelled from the spec: the structured not-deployed error message of
pkg/api/strings, stating that the named app is not deployed. -/
def ErrAppNotDeployed (appName : String) : String :=
  appName ++ " is not deployed"

/-- Modelled from the spec: the fixed deletion-succeeded message of
pkg/api/strings. -/
def ResDeploymentDeleted : String :=
  "Deployment deleted"

/-- What the Delete handler writes: an error response with a message, or
the JSON success response with a message. -/
inductive EndpointResponse where
  | errorResponse (msg : String)
  | deleteResponse (message : String)
  deriving DecidableEq

/-- Delete from delete.go, over the collaborator workloads.DeleteApp
(passed as the function deleteApp) and the two query parameters: a missing
appName responds with the required-parameter error; otherwise keepCache
defaults to false, the collaborator is asked to delete, a false wasDeployed
responds with the not-deployed error for the app name, and a true
wasDeployed responds with the fixed deletion-succeeded message. -/
def Delete (deleteApp : String → Bool → Bool) (appNameParam : Option String)
    (keepCacheParam : Option Bool) : EndpointResponse :=
  match appNameParam with
  | none => EndpointResponse.errorResponse (ErrQueryParamRequired "appName")
  | some appName =>
    let keepCache := keepCacheParam.getD false
    let wasDeployed := deleteApp appName keepCache
    if wasDeployed = false then
      EndpointResponse.errorResponse (ErrAppNotDeployed appName)
    else
      EndpointResponse.deleteResponse ResDeploymentDeleted

/-- C9: for every Delete request carrying an appName, a collaborator
verdict of not-deployed yields the structured error response stating the
app is not deployed, and a verdict of deployed yields the fixed
deletion-succeeded message. -/
theorem claim_C9_delete_dispatch (deleteApp : String → Bool → Bool)
    (appName : String) (keepCacheParam : Option Bool) :
    (deleteApp appName (keepCacheParam.getD false) = false →
      Delete deleteApp (some appName) keepCacheParam
        = EndpointResponse.errorResponse (ErrAppNotDeployed appName)) ∧
    (deleteApp appName (keepCacheParam.getD false) = true →
      Delete deleteApp (some appName) keepCacheParam
        = EndpointResponse.deleteResponse ResDeploymentDeleted) := by
  constructor
  · intro h
    simp [Delete, h]
  · intro h
    simp [Delete, h]

/-- Witness for C9 at the concrete inputs of the spec scenario: app foo
with a collaborator reporting not-deployed, and the same app with a
collaborator reporting deployed. -/
theorem claim_C9_delete_dispatch_witness :
    Delete (fun _ _ => false) (some "foo") none
      = EndpointResponse.errorResponse (ErrAppNotDeployed "foo") ∧
    Delete (fun _ _ => true) (some "foo") none
      = EndpointResponse.deleteResponse ResDeploymentDeleted :=
  ⟨(claim_C9_delete_dispatch (fun _ _ => false) "foo" none).1 rfl,
   (claim_C9_delete_dispatch (fun _ _ => true) "foo" none).2 rfl⟩

end Cortex
